import Mathlib

/-!
Shallow embedding of the siderolabs/booter boot-server core:
`internal/server/imagefactory/client.go` and `internal/server/ipxe/handler.go`,
together with the behavior of the `blang/semver/v4` dependency that
`GetLatestStableVersion` relies on.

Conventions: Go strings are Lean `String`s, Go `error` results are
`Except String`, and the HTTP layer is a function from the request's
script path value and a query-lookup function to a `Response` value
(status code, optional content type, body).  All string manipulation is
implemented over `List Char` so that every definition reduces by kernel
computation on concrete inputs.
-/

namespace Booter

/-! String helpers modelling the Go `strings` package operations used by the code. -/

/-- Splits a character list at every character satisfying `p`; model of `strings.Split`
restricted to one-character separators (adjacent separators produce empty groups). -/
def splitCharList (p : Char → Bool) : List Char → List (List Char)
  | [] => [[]]
  | a :: as =>
    if p a then [] :: splitCharList p as
    else
      match splitCharList p as with
      | [] => [[a]]
      | g :: gs => (a :: g) :: gs

/-- Model of Go `strings.Split(s, sep)` for a one-character separator. -/
def splitOnChar (c : Char) (s : String) : List String :=
  (splitCharList (fun x => x == c) s.data).map String.mk

/-- Model of Go `strings.Join(parts, ".")`. -/
def joinDot : List String → String
  | [] => ""
  | [a] => a
  | a :: rest => a ++ "." ++ joinDot rest

/-- Model of Go `strings.TrimSpace`. -/
def trimSpace (s : String) : String :=
  String.mk (((s.data.dropWhile Char.isWhitespace).reverse.dropWhile Char.isWhitespace).reverse)

/-- Model of Go `strings.Fields`: whitespace-separated fields with empties dropped. -/
def fields (s : String) : List String :=
  ((splitCharList Char.isWhitespace s.data).map String.mk).filter (fun p => p != "")

/-- Splits `l` around the first occurrence of `c`; model of `strings.IndexRune`
followed by slicing before/after the found index. -/
def breakAtChar (c : Char) : List Char → Option (List Char × List Char)
  | [] => none
  | a :: as =>
    if a == c then some ([], as)
    else
      match breakAtChar c as with
      | none => none
      | some (x, y) => some (a :: x, y)

/-- String-level wrapper for `breakAtChar`. -/
def splitFirst (s : String) (c : Char) : Option (String × String) :=
  match breakAtChar c s.data with
  | none => none
  | some (x, y) => some (String.mk x, String.mk y)

/-- First character of `s` is an ASCII digit; model of
`strings.ContainsAny(p[0:1], "0123456789")` on a nonempty string. -/
def headIsDigit (s : String) : Bool :=
  match s.data with
  | c :: _ => c.isDigit
  | [] => false

namespace semver

/-! Embedding of the parts of `blang/semver/v4` used by
`Client.GetLatestStableVersion`: `ParseTolerant`, `Parse`, `Version.Compare`,
`Version.GT` and `Version.String`. -/

/-- Digit characters accepted in numeric components (blang/semver `numbers`). -/
def numbers : String := "0123456789"

/-- Characters accepted in alphanumeric components (blang/semver `alphas ++ numbers`). -/
def alphanum : String := "abcdefghijklmnopqrstuvwxyzABCDEFGHIJKLMNOPQRSTUVWXYZ-0123456789"

/-- Model of blang/semver `containsOnly`: every character of `s` occurs in `set`. -/
def containsOnly (s set : String) : Bool :=
  s.data.all (fun c => set.data.contains c)

/-- Model of blang/semver `hasLeadingZeroes`. -/
def hasLeadingZeroes (s : String) : Bool :=
  s.length > 1 &&
    (match s.data with
     | c :: _ => c == '0'
     | [] => false)

/-- Model of Go `strconv.ParseUint(s, 10, 64)`: digits only, value below `2 ^ 64`. -/
def parseUint64 (s : String) : Except String Nat :=
  if s.data.isEmpty then .error "invalid syntax"
  else if !(s.data.all Char.isDigit) then .error "invalid syntax"
  else
    let n := s.data.foldl (fun acc c => acc * 10 + (c.toNat - 48)) 0
    if n < 2 ^ 64 then .ok n else .error "value out of range"

/-- blang/semver `PRVersion`: one pre-release component, numeric or alphanumeric. -/
structure PRVersion where
  versionStr : String
  versionNum : Nat
  isNum : Bool
deriving DecidableEq, Repr

/-- Model of blang/semver `NewPRVersion`. -/
def newPRVersion (s : String) : Except String PRVersion :=
  if s.length = 0 then .error "Prerelease is empty"
  else if containsOnly s numbers then
    if hasLeadingZeroes s then .error "Numeric PreRelease version must not contain leading zeroes"
    else
      match parseUint64 s with
      | .error e => .error e
      | .ok n => .ok { versionStr := "", versionNum := n, isNum := true }
  else if containsOnly s alphanum then .ok { versionStr := s, versionNum := 0, isNum := false }
  else .error "Invalid character(s) found in prerelease"

/-- blang/semver `Version`. -/
structure Version where
  major : Nat
  minor : Nat
  patch : Nat
  pre : List PRVersion
  build : List String
deriving DecidableEq, Repr

/-- Model of blang/semver build-metadata validation inside `Parse`. -/
def checkBuild (b : String) : Except String Unit :=
  if b.length = 0 then .error "Build meta data is empty"
  else if !containsOnly b alphanum then .error "Invalid character(s) found in build meta data"
  else .ok ()

/-- Model of Go `strings.SplitN(s, ".", 3)`. -/
def splitN3 (s : String) : List String :=
  match splitOnChar '.' s with
  | a :: b :: c :: rest => [a, b, joinDot (c :: rest)]
  | parts => parts

/-- Model of blang/semver `Parse`. -/
def parse (s : String) : Except String Version :=
  if s.length = 0 then .error "Version string empty"
  else
    match splitN3 s with
    | [majorS, minorS, patchFull] =>
      if !containsOnly majorS numbers then .error "Invalid character(s) found in major number"
      else if hasLeadingZeroes majorS then .error "Major number must not contain leading zeroes"
      else
        match parseUint64 majorS with
        | .error e => .error e
        | .ok major =>
          if !containsOnly minorS numbers then .error "Invalid character(s) found in minor number"
          else if hasLeadingZeroes minorS then .error "Minor number must not contain leading zeroes"
          else
            match parseUint64 minorS with
            | .error e => .error e
            | .ok minor =>
              let buildSplit :=
                match splitFirst patchFull '+' with
                | none => (patchFull, ([] : List String))
                | some (bef, aft) => (bef, splitOnChar '.' aft)
              let preSplit :=
                match splitFirst buildSplit.1 '-' with
                | none => (buildSplit.1, ([] : List String))
                | some (bef, aft) => (bef, splitOnChar '.' aft)
              if !containsOnly preSplit.1 numbers then
                .error "Invalid character(s) found in patch number"
              else if hasLeadingZeroes preSplit.1 then
                .error "Patch number must not contain leading zeroes"
              else
                match parseUint64 preSplit.1 with
                | .error e => .error e
                | .ok patch =>
                  match preSplit.2.mapM newPRVersion with
                  | .error e => .error e
                  | .ok pre =>
                    match buildSplit.2.mapM checkBuild with
                    | .error e => .error e
                    | .ok _ =>
                      .ok { major := major, minor := minor, patch := patch,
                            pre := pre, build := buildSplit.2 }
    | _ => .error "No Major.Minor.Patch elements found"

/-- Model of the per-part leading-zero removal inside blang/semver `ParseTolerant`. -/
def trimZeros (p : String) : String :=
  if p.length > 1 then
    let q := String.mk (p.data.dropWhile (fun c => c == '0'))
    if q.data.isEmpty || !headIsDigit q then "0" ++ q else q
  else p

/-- Model of blang/semver `ParseTolerant`: trims space, strips a "v" prefix character,
removes leading zeros per dot-part, fills missing minor/patch parts with "0",
then delegates to `parse`. -/
def parseTolerant (s : String) : Except String Version :=
  let t := trimSpace s
  let t2 :=
    match t.data with
    | c :: rest => if c == 'v' then String.mk rest else t
    | [] => t
  let parts := (splitN3 t2).map trimZeros
  if parts.length < 3 then
    if (parts.getLastD "").data.any (fun c => c == '+' || c == '-') then
      .error "Short version cannot contain PreRelease/Build meta data"
    else parse (joinDot (parts ++ List.replicate (3 - parts.length) "0"))
  else parse (joinDot parts)

/-- Model of blang/semver `PRVersion.Compare`. -/
def PRVersion.compare (v o : PRVersion) : Int :=
  if v.isNum && !o.isNum then -1
  else if !v.isNum && o.isNum then 1
  else if v.isNum && o.isNum then
    if v.versionNum = o.versionNum then 0
    else if v.versionNum > o.versionNum then 1
    else -1
  else
    if v.versionStr = o.versionStr then 0
    else if o.versionStr < v.versionStr then 1
    else -1

/-- Model of the pre-release comparison loop inside blang/semver `Version.Compare`. -/
def comparePre : List PRVersion → List PRVersion → Int
  | [], [] => 0
  | [], _ :: _ => -1
  | _ :: _, [] => 1
  | a :: as, b :: bs =>
    let c := a.compare b
    if c = 0 then comparePre as bs else c

/-- Model of blang/semver `Version.Compare`. -/
def Version.compare (v o : Version) : Int :=
  if v.major ≠ o.major then (if v.major > o.major then 1 else -1)
  else if v.minor ≠ o.minor then (if v.minor > o.minor then 1 else -1)
  else if v.patch ≠ o.patch then (if v.patch > o.patch then 1 else -1)
  else if v.pre.length = 0 ∧ o.pre.length = 0 then 0
  else if v.pre.length = 0 then 1
  else if o.pre.length = 0 then -1
  else comparePre v.pre o.pre

/-- Model of blang/semver `Version.GT`. -/
def Version.GT (v o : Version) : Bool :=
  v.compare o == 1

/-- Model of blang/semver `PRVersion.String`. -/
def PRVersion.toStr (p : PRVersion) : String :=
  if p.isNum then toString p.versionNum else p.versionStr

/-- Model of blang/semver `Version.String`. -/
def Version.toStr (v : Version) : String :=
  let base := toString v.major ++ "." ++ toString v.minor ++ "." ++ toString v.patch
  let withPre :=
    if v.pre.isEmpty then base
    else base ++ "-" ++ joinDot (v.pre.map PRVersion.toStr)
  if v.build.isEmpty then withPre
  else withPre ++ "+" ++ joinDot v.build

end semver

namespace imagefactory

/-- The image factory client state relevant to URL construction
(`Client` in `internal/server/imagefactory/client.go`; the embedded network
client and logger are dropped). -/
structure Client where
  pxeBaseURL : String
  secureBootEnabled : Bool
deriving DecidableEq, Repr

/-- Embedding of `Client.GetIPXEURL` (client.go:75-95): validates the three inputs,
then builds `<pxeBaseURL>/pxe/<schematicID>/<talosVersion>/metal-<arch>` with a
`-secureboot` suffix appended when secure boot is enabled. -/
def Client.GetIPXEURL (c : Client) (schematicID talosVersion arch : String) :
    Except String String :=
  if schematicID = "" then .error "schematic ID is required"
  else if talosVersion = "" then .error "talos version is required"
  else if arch = "" then .error "arch is required"
  else
    let ipxeURL :=
      c.pxeBaseURL ++ "/pxe/" ++ schematicID ++ "/" ++ talosVersion ++ "/metal-" ++ arch
    if c.secureBootEnabled then .ok (ipxeURL ++ "-secureboot") else .ok ipxeURL

/-- Loop body of `Client.GetLatestStableVersion` (client.go:105-121): unparseable
versions are skipped, pre-releases are skipped, otherwise the running maximum
under `semver.Version.GT` is updated. -/
def latestStableStep (latestStable : Option semver.Version) (v : String) :
    Option semver.Version :=
  match semver.parseTolerant v with
  | .error _ => latestStable
  | .ok sv =>
    if sv.pre.length > 0 then latestStable
    else
      match latestStable with
      | none => some sv
      | some cur => if sv.GT cur then some sv else latestStable

/-- Embedding of `Client.GetLatestStableVersion` (client.go:98-128).  The list
returned by the factory's `Versions` call is passed as an argument (the network
fetch is abstracted as input); the function folds `latestStableStep` over it and
renders the resulting version, failing when no stable version was found. -/
def Client.GetLatestStableVersion (_c : Client) (versions : List String) :
    Except String String :=
  match versions.foldl latestStableStep none with
  | none => .error "no stable versions found"
  | some v => .ok v.toStr

/-- A version string parses under `semver.parseTolerant` and is not a pre-release
(specification-side predicate used to state properties of `GetLatestStableVersion`). -/
def isStableVersion (v : String) : Bool :=
  match semver.parseTolerant v with
  | .ok sv => sv.pre.isEmpty
  | .error _ => false

/-- Parsed stable version of one input string, if any. -/
def stableParse (v : String) : Option semver.Version :=
  match semver.parseTolerant v with
  | .ok sv => if sv.pre.length > 0 then none else some sv
  | .error _ => none

/-- All parsed stable versions of a version list, in input order. -/
def stableParses (versions : List String) : List semver.Version :=
  versions.filterMap stableParse

end imagefactory

namespace ipxe

/-- Template of the served boot script (`ipxeScriptTemplateFormat`, handler.go:21-23),
with the URL substituted for the `%s` verb. -/
def ipxeScriptTemplate (url : String) : String :=
  "#!ipxe\nchain --replace " ++ url ++ "\n"

/-- Constant `archArm64` (handler.go:24). -/
def archArm64 : String := "arm64"

/-- Constant `archAmd64` (handler.go:25). -/
def archAmd64 : String := "amd64"

/-- Constant `initScriptName` (handler.go:30). -/
def initScriptName : String := "init.ipxe"

/-- Constant `bootScriptName` (handler.go:35). -/
def bootScriptName : String := "boot.ipxe"

/-- Constant `constants.KernelParamConfig` from the Talos machinery dependency. -/
def KernelParamConfig : String := "talos.config"

/-- The `ImageFactoryClient` interface (handler.go:39-42), as a record of the two
operations; contexts and timeouts are dropped, network effects are abstracted
as function results. -/
structure ImageFactoryClient where
  EnsureSchematic : List String → List String → Except String String
  GetIPXEURL : String → String → String → Except String String

/-- `HandlerOptions` (handler.go:45-52). -/
structure HandlerOptions where
  APIAdvertiseAddress : String
  TalosVersion : String
  ExtraKernelArgs : String
  SchematicID : String
  Extensions : List String
  APIPort : Nat
deriving Repr

/-- `Handler` (handler.go:55-61); the logger is dropped. -/
structure Handler where
  imageFactoryClient : ImageFactoryClient
  kernelArgs : List String
  initScript : String
  options : HandlerOptions

/-- An HTTP response as observed by the client: status code, the content type
when one is set explicitly, and the body bytes (modelled as a string). -/
structure Response where
  statusCode : Nat
  contentType : Option String
  body : String
deriving DecidableEq, Repr

/-- The `(body, statusCode, err)` triple returned by `bootViaFactoryIPXEScript`. -/
structure BootResult where
  body : String
  statusCode : Nat
  err : Option String
deriving DecidableEq, Repr

/-- The inline architecture normalization of `ServeHTTP` (handler.go:90-92):
anything other than exactly "arm64" is coerced to "amd64". -/
def normalizeArch (arch : String) : String :=
  if arch ≠ archArm64 then archAmd64 else arch

/-- Embedding of `Handler.consoleKernelArgs` (handler.go:151-158). -/
def Handler.consoleKernelArgs (_handler : Handler) (arch : String) : List String :=
  if arch == archArm64 then ["console=tty0", "console=ttyAMA0"]
  else ["console=tty0", "console=ttyS0"]

/-- Continuation of `bootViaFactoryIPXEScript` after the schematic ID is known
(handler.go:140-148): build the URL, wrap a failure, or render the script. -/
def resolveThenURL (handler : Handler) (arch : String) (resolved : Except String String) :
    BootResult :=
  match resolved with
  | .error e =>
    { body := "", statusCode := 500, err := some ("failed to get schematic IPXE URL: " ++ e) }
  | .ok schematicID =>
    match handler.imageFactoryClient.GetIPXEURL schematicID handler.options.TalosVersion arch with
    | .error e =>
      { body := "", statusCode := 500, err := some ("failed to get schematic IPXE URL: " ++ e) }
    | .ok ipxeURL =>
      { body := ipxeScriptTemplate ipxeURL, statusCode := 200, err := none }

/-- Embedding of `Handler.bootViaFactoryIPXEScript` (handler.go:131-149): a fixed
configured schematic ID is used directly, otherwise `EnsureSchematic` resolves one
from the configured extensions and the supplied kernel args. -/
def Handler.bootViaFactoryIPXEScript (handler : Handler) (arch : String)
    (kernelArgs : List String) : BootResult :=
  resolveThenURL handler arch
    (if handler.options.SchematicID = "" then
      handler.imageFactoryClient.EnsureSchematic handler.options.Extensions kernelArgs
    else .ok handler.options.SchematicID)

/-- The error/success translation of the boot branch of `ServeHTTP`
(handler.go:103-120): a failure becomes a 500 with the error text appended to
a fixed prefix, a success passes the composed body and status through. -/
def bootRespond (result : BootResult) : Response :=
  match result.err with
  | some e =>
    { statusCode := 500, contentType := none, body := "failed to get iPXE script: " ++ e }
  | none =>
    { statusCode := result.statusCode, contentType := none, body := result.body }

/-- Embedding of `Handler.handleInitScript` (handler.go:123-129): text/plain,
implicit status 200, body = the init script fixed at startup. -/
def Handler.handleInitScript (handler : Handler) : Response :=
  { statusCode := 200, contentType := some "text/plain", body := handler.initScript }

/-- Embedding of `Handler.ServeHTTP` (handler.go:68-121).  `script` is the request's
"script" path value and `query` is the query-parameter lookup (absent keys yield "",
as with Go's `url.Values.Get`). -/
def Handler.ServeHTTP (handler : Handler) (script : String) (query : String → String) :
    Response :=
  if script == initScriptName then handler.handleInitScript
  else if script == bootScriptName then
    let arch := normalizeArch (query "arch")
    let consoleArgs := handler.consoleKernelArgs arch
    let kernelArgs := handler.kernelArgs ++ consoleArgs
    bootRespond (handler.bootViaFactoryIPXEScript arch kernelArgs)
  else { statusCode := 404, contentType := none, body := "" }

/-- Model of Go `net.JoinHostPort`. -/
def joinHostPort (host port : String) : String :=
  if host.data.contains ':' then "[" ++ host ++ "]:" ++ port else host ++ ":" ++ port

/-- Embedding of `NewHandler` (handler.go:161-205).  `buildInitScript` and
`patchBinaries` live in repository files outside the provided sources, so they are
taken as parameters; the mutual-exclusion check, init-script construction, binary
patching, and kernel-arg assembly follow the source order. -/
def NewHandler (configServerEnabled : Bool) (imageFactoryClient : ImageFactoryClient)
    (options : HandlerOptions) (buildInitScript : String → Nat → Except String String)
    (patchBinaries : String → Except String Unit) : Except String Handler :=
  let apiHostPort := joinHostPort options.APIAdvertiseAddress (toString options.APIPort)
  let talosConfigURL := "http://" ++ apiHostPort ++ "/config?u=$\x7buuid\x7d"
  let talosConfigKernelArg := KernelParamConfig ++ "=" ++ talosConfigURL
  if options.SchematicID ≠ "" ∧ (options.Extensions.length > 0 ∨ options.ExtraKernelArgs.length > 0) then
    .error "schematicID cannot be used with extensions or extraKernelArgs"
  else
    match buildInitScript options.APIAdvertiseAddress options.APIPort with
    | .error e => .error ("failed to build init script: " ++ e)
    | .ok initScript =>
      match patchBinaries initScript with
      | .error e => .error e
      | .ok _ =>
        let kernelArgs := fields options.ExtraKernelArgs
        let kernelArgs :=
          if configServerEnabled then kernelArgs ++ [talosConfigKernelArg] else kernelArgs
        .ok { imageFactoryClient := imageFactoryClient, options := options,
              kernelArgs := kernelArgs, initScript := initScript }

end ipxe

/-! Decidable equality for `Except`, so that concrete runs of the embedded
functions can be checked by `decide`. -/

instance {e a : Type} [DecidableEq e] [DecidableEq a] : DecidableEq (Except e a) := fun x y =>
  match x, y with
  | .ok u, .ok v => if h : u = v then .isTrue (by rw [h]) else .isFalse (by simp [h])
  | .error u, .error v => if h : u = v then .isTrue (by rw [h]) else .isFalse (by simp [h])
  | .ok _, .error _ => .isFalse (by simp)
  | .error _, .ok _ => .isFalse (by simp)

/-! Concrete fixtures used in witness statements (inputs to the embedded
functions, not part of the embedding itself). -/

/-- Witness fixture: an image-factory stub whose resolved schematic identifier
records whether the arm64 console argument was among the requested kernel args,
composed with the real `GetIPXEURL` of a non-secure-boot client. -/
def archProbe : ipxe.ImageFactoryClient :=
  { EnsureSchematic := fun _ args =>
      .ok (if args.contains "console=ttyAMA0" then "schem-arm" else "schem-amd")
    GetIPXEURL := imagefactory.Client.GetIPXEURL ⟨"P", false⟩ }

/-- Witness fixture: a handler with no fixed schematic ID over `archProbe`. -/
def probeHandler : ipxe.Handler :=
  { imageFactoryClient := archProbe, kernelArgs := [], initScript := "INIT",
    options := ⟨"", "v1", "", "", [], 0⟩ }

/-- Witness fixture: an image-factory stub that always fails. -/
def failingFactory : ipxe.ImageFactoryClient :=
  { EnsureSchematic := fun _ _ => .error "boom", GetIPXEURL := fun _ _ _ => .error "boom" }

/-- Witness fixture: a handler with no fixed schematic ID over `failingFactory`. -/
def failHandler : ipxe.Handler :=
  { imageFactoryClient := failingFactory, kernelArgs := [], initScript := "INIT",
    options := ⟨"", "v1", "", "", [], 0⟩ }

/-- The `BootResult` that `ServeHTTP` computes for a boot-script request with query
`q`: `bootViaFactoryIPXEScript` at the normalized architecture and at the base
kernel args followed by the console kernel args (abbreviation used to state
properties of the boot path). -/
def bootResultOf (h : ipxe.Handler) (q : String → String) : ipxe.BootResult :=
  h.bootViaFactoryIPXEScript (ipxe.normalizeArch (q "arch"))
    (h.kernelArgs ++ h.consoleKernelArgs (ipxe.normalizeArch (q "arch")))

/-- Witness fixture: a query with `arch=arm64`. -/
def qArm : String → String := fun k => if k = "arch" then "arm64" else ""

/-- Witness fixture: an empty query (every parameter absent). -/
def qNone : String → String := fun _ => ""

end Booter

/-! Helper lemmas shared by the claim theorems. -/

namespace Booter

open semver imagefactory ipxe

/-- A nonempty string has positive length. -/
theorem string_length_pos (s : String) (h : s ≠ "") : s.length > 0 := by
  obtain ⟨l⟩ := s
  cases l with
  | nil => exact absurd rfl h
  | cons c cs => simp [String.length]

/-- On the boot-script path, `ServeHTTP` responds with `bootRespond` applied to
`bootViaFactoryIPXEScript` at the normalized architecture and at the base kernel
args concatenated with the console kernel args. -/
theorem serve_boot_eq (h : Handler) (q : String → String) :
    h.ServeHTTP bootScriptName q =
      bootRespond (h.bootViaFactoryIPXEScript (normalizeArch (q "arch"))
        (h.kernelArgs ++ h.consoleKernelArgs (normalizeArch (q "arch")))) := rfl

/-- Every result of `bootViaFactoryIPXEScript` is either an error triple with an
empty body and status 500, or a rendered script with status 200 and no error. -/
theorem bootViaFactory_cases (h : Handler) (arch : String) (args : List String) :
    (∃ e, h.bootViaFactoryIPXEScript arch args =
      { body := "", statusCode := 500, err := some ("failed to get schematic IPXE URL: " ++ e) })
    ∨ (∃ url, h.bootViaFactoryIPXEScript arch args =
      { body := ipxeScriptTemplate url, statusCode := 200, err := none }) := by
  unfold Handler.bootViaFactoryIPXEScript
  cases hE : (if h.options.SchematicID = "" then
      h.imageFactoryClient.EnsureSchematic h.options.Extensions args
    else Except.ok h.options.SchematicID) with
  | error e => exact Or.inl ⟨e, rfl⟩
  | ok sid =>
    cases hG : h.imageFactoryClient.GetIPXEURL sid h.options.TalosVersion arch with
    | error e => exact Or.inl ⟨e, by simp [resolveThenURL, hG]⟩
    | ok url => exact Or.inr ⟨url, by simp [resolveThenURL, hG]⟩

end Booter

namespace Booter

open semver imagefactory ipxe

/-- C1: for every schematic ID, Talos version and architecture, `GetIPXEURL` returns
an error iff at least one of the three strings is empty; when all three are non-empty
it returns `<pxeBase>/pxe/<schematicID>/<talosVersion>/metal-<arch>` with the
`-secureboot` suffix appended iff secure boot is enabled. -/
theorem getIPXEURL_spec (pxeBase : String) (sb : Bool) (sid tv arch : String) :
    ((∃ e, Client.GetIPXEURL ⟨pxeBase, sb⟩ sid tv arch = .error e) ↔
      (sid = "" ∨ tv = "" ∨ arch = ""))
    ∧ (sid ≠ "" → tv ≠ "" → arch ≠ "" →
        Client.GetIPXEURL ⟨pxeBase, sb⟩ sid tv arch =
          .ok (pxeBase ++ "/pxe/" ++ sid ++ "/" ++ tv ++ "/metal-" ++ arch ++
            (if sb then "-secureboot" else ""))) := by
  unfold Client.GetIPXEURL
  constructor
  · constructor
    · rintro ⟨e, he⟩
      by_contra hc
      push_neg at hc
      obtain ⟨h1, h2, h3⟩ := hc
      rw [if_neg h1, if_neg h2, if_neg h3] at he
      split_ifs at he
    · intro hor
      by_cases h1 : sid = ""
      · exact ⟨_, by rw [if_pos h1]⟩
      by_cases h2 : tv = ""
      · exact ⟨_, by rw [if_neg h1, if_pos h2]⟩
      by_cases h3 : arch = ""
      · exact ⟨_, by rw [if_neg h1, if_neg h2, if_pos h3]⟩
      rcases hor with h | h | h <;> contradiction
  · intro h1 h2 h3
    rw [if_neg h1, if_neg h2, if_neg h3]
    cases sb with
    | false => simp
    | true => rfl

/-- Witness for C1 at concrete inputs: a full URL with the secure-boot suffix, and
an error on an empty schematic ID. -/
theorem getIPXEURL_spec_witness :
    Client.GetIPXEURL ⟨"https://pxe.factory.talos.dev", true⟩ "sid1" "v1.8.0" "amd64" =
      .ok ("https://pxe.factory.talos.dev" ++ "/pxe/" ++ "sid1" ++ "/" ++ "v1.8.0" ++
        "/metal-" ++ "amd64" ++ (if true then "-secureboot" else ""))
    ∧ (∃ e, Client.GetIPXEURL ⟨"https://pxe.factory.talos.dev", true⟩ "" "v1.8.0" "amd64" =
        .error e) :=
  ⟨(getIPXEURL_spec "https://pxe.factory.talos.dev" true "sid1" "v1.8.0" "amd64").2
      (by decide) (by decide) (by decide),
   (getIPXEURL_spec "https://pxe.factory.talos.dev" true "" "v1.8.0" "amd64").1.mpr
      (Or.inl rfl)⟩

/-- C3: for every raw architecture string, the normalized architecture is "arm64"
iff the raw value is exactly "arm64", and "amd64" in every other case. -/
theorem normalizeArch_spec (a : String) :
    (normalizeArch a = archArm64 ↔ a = archArm64)
    ∧ (a ≠ archArm64 → normalizeArch a = archAmd64) := by
  unfold normalizeArch
  by_cases h : a = archArm64
  · subst h
    simp
  · rw [if_pos h]
    refine ⟨⟨fun hc => absurd hc (by decide), fun hc => absurd hc h⟩, fun _ => rfl⟩

/-- Witness for C3 at concrete inputs "i386" (QEMU-style placeholder) and "". -/
theorem normalizeArch_spec_witness :
    normalizeArch "i386" = archAmd64 ∧ normalizeArch "" = archAmd64 :=
  ⟨(normalizeArch_spec "i386").2 (by decide), (normalizeArch_spec "").2 (by decide)⟩

/-- C4: console kernel args are exactly tty0/ttyAMA0 for arm64 and tty0/ttyS0 for
every other normalized architecture, and the boot path hands boot-script composition
the base kernel args followed by the console args, in that order. -/
theorem consoleKernelArgs_spec (h : Handler) (arch : String) (q : String → String) :
    h.consoleKernelArgs archArm64 = ["console=tty0", "console=ttyAMA0"]
    ∧ (arch ≠ archArm64 → h.consoleKernelArgs arch = ["console=tty0", "console=ttyS0"])
    ∧ h.ServeHTTP bootScriptName q =
        bootRespond (h.bootViaFactoryIPXEScript (normalizeArch (q "arch"))
          (h.kernelArgs ++ h.consoleKernelArgs (normalizeArch (q "arch")))) := by
  refine ⟨rfl, fun hne => ?_, serve_boot_eq h q⟩
  unfold Handler.consoleKernelArgs
  rw [if_neg]
  simpa using hne

/-- Witness for C4 at a concrete handler and the raw architecture "riscv64". -/
theorem consoleKernelArgs_spec_witness :
    probeHandler.consoleKernelArgs archArm64 = ["console=tty0", "console=ttyAMA0"]
    ∧ probeHandler.consoleKernelArgs "riscv64" = ["console=tty0", "console=ttyS0"] :=
  ⟨(consoleKernelArgs_spec probeHandler "riscv64" qNone).1,
   (consoleKernelArgs_spec probeHandler "riscv64" qNone).2.1 (by decide)⟩

/-- C8: a request for init.ipxe is answered 200, text/plain, with the handler's
init script fixed at startup, regardless of query parameters; two such requests
within one process lifetime get identical content. -/
theorem serve_init_script_spec (h : Handler) (q q2 : String → String) :
    h.ServeHTTP initScriptName q =
      { statusCode := 200, contentType := some "text/plain", body := h.initScript }
    ∧ h.ServeHTTP initScriptName q = h.ServeHTTP initScriptName q2 :=
  ⟨rfl, rfl⟩

/-- C9: a request for a script name other than init.ipxe and boot.ipxe is answered
404 with an empty body, for every handler (hence without consulting the image
factory) and every query. -/
theorem serve_unknown_script_spec (h : Handler) (s : String) (q : String → String)
    (h1 : s ≠ initScriptName) (h2 : s ≠ bootScriptName) :
    h.ServeHTTP s q = { statusCode := 404, contentType := none, body := "" } := by
  unfold Handler.ServeHTTP
  rw [if_neg (by simpa using h1), if_neg (by simpa using h2)]

/-- Witness for C9 at the concrete script name "foo.ipxe". -/
theorem serve_unknown_script_spec_witness :
    probeHandler.ServeHTTP "foo.ipxe" qNone =
      { statusCode := 404, contentType := none, body := "" } :=
  serve_unknown_script_spec probeHandler "foo.ipxe" qNone (by decide) (by decide)

end Booter

namespace Booter

open semver imagefactory ipxe

/-- C2: with a non-empty fixed schematic ID configured, the boot path uses it
directly — the response does not depend on the `EnsureSchematic` operation, which
is universally quantified here — and a boot request with arch=arm64, identifier
img-1, version v1.2.3 and secure boot disabled yields status 200 and exactly the
two-line chain script for `<pxeBase>/pxe/img-1/v1.2.3/metal-arm64`. -/
theorem boot_fixed_schematic_spec (pxeBase : String)
    (ensure : List String → List String → Except String String)
    (baseArgs : List String) (initS : String) (q : String → String)
    (hq : q "arch" = "arm64") :
    Handler.ServeHTTP
      ⟨⟨ensure, Client.GetIPXEURL ⟨pxeBase, false⟩⟩, baseArgs, initS,
        ⟨"", "v1.2.3", "", "img-1", [], 0⟩⟩ bootScriptName q =
      { statusCode := 200, contentType := none,
        body := "#!ipxe\nchain --replace " ++ pxeBase ++
          "/pxe/img-1/v1.2.3/metal-arm64\n" } := by
  rw [serve_boot_eq, hq]
  show Response.mk 200 none
      ("#!ipxe\nchain --replace " ++
        (pxeBase ++ "/pxe/" ++ "img-1" ++ "/" ++ "v1.2.3" ++ "/metal-" ++ "arm64") ++ "\n") = _
  simp only [String.append_assoc]
  rfl

/-- Witness for C2 at a concrete base URL, query and (failing) resolver. -/
theorem boot_fixed_schematic_spec_witness :
    Handler.ServeHTTP
      ⟨⟨failingFactory.EnsureSchematic, Client.GetIPXEURL ⟨"P", false⟩⟩, [], "INIT",
        ⟨"", "v1.2.3", "", "img-1", [], 0⟩⟩ bootScriptName qArm =
      { statusCode := 200, contentType := none,
        body := "#!ipxe\nchain --replace " ++ "P" ++ "/pxe/img-1/v1.2.3/metal-arm64\n" } :=
  boot_fixed_schematic_spec "P" failingFactory.EnsureSchematic [] "INIT" qArm rfl

/-- C5: on the boot path, a failure of script composition yields status 500 with a
body that is a fixed prefix followed by the error text — and the composition result
carries an empty body, so no partial script exists — while a success yields status
200 and the composed script body, which is an instance of the two-line template. -/
theorem serve_boot_result_spec (h : Handler) (q : String → String) :
    (∀ e, (bootResultOf h q).err = some e →
        h.ServeHTTP bootScriptName q =
          { statusCode := 500, contentType := none,
            body := "failed to get iPXE script: " ++ e }
        ∧ (bootResultOf h q).body = "")
    ∧ ((bootResultOf h q).err = none →
        (bootResultOf h q).statusCode = 200
        ∧ h.ServeHTTP bootScriptName q =
            { statusCode := 200, contentType := none, body := (bootResultOf h q).body }
        ∧ ∃ url, (bootResultOf h q).body = ipxeScriptTemplate url) := by
  have hs : h.ServeHTTP bootScriptName q = bootRespond (bootResultOf h q) := rfl
  rcases bootViaFactory_cases h (normalizeArch (q "arch"))
      (h.kernelArgs ++ h.consoleKernelArgs (normalizeArch (q "arch"))) with ⟨e, he⟩ | ⟨url, hu⟩
  · have hr : bootResultOf h q =
        { body := "", statusCode := 500,
          err := some ("failed to get schematic IPXE URL: " ++ e) } := he
    constructor
    · intro e' he'
      rw [hr] at he'
      simp only [Option.some.injEq] at he'
      subst he'
      exact ⟨by rw [hs, hr]; rfl, by rw [hr]⟩
    · intro hnone
      rw [hr] at hnone
      simp at hnone
  · have hr : bootResultOf h q =
        { body := ipxeScriptTemplate url, statusCode := 200, err := none } := hu
    constructor
    · intro e' he'
      rw [hr] at he'
      simp at he'
    · intro _
      exact ⟨by rw [hr], by rw [hs, hr]; rfl, ⟨url, by rw [hr]⟩⟩

/-- Witness for C5: a failing resolver produces the 500 response with the wrapped
error text in the body, and the composition result has an empty body. -/
theorem serve_boot_result_spec_witness :
    failHandler.ServeHTTP bootScriptName qNone =
      { statusCode := 500, contentType := none,
        body := "failed to get iPXE script: failed to get schematic IPXE URL: boom" }
    ∧ (bootResultOf failHandler qNone).body = "" :=
  (serve_boot_result_spec failHandler qNone).1 "failed to get schematic IPXE URL: boom"
    (by decide)

/-- C7: constructing a handler with a non-empty fixed schematic ID together with a
non-empty extensions list or non-empty extra kernel args fails with the dedicated
error, before anything else runs; with an empty schematic ID, or with a schematic
ID but neither extensions nor extra kernel args, the check passes and construction
succeeds (given succeeding init-script building and binary patching). -/
theorem newHandler_validation_spec (cse : Bool) (client : ImageFactoryClient)
    (opts : HandlerOptions) (bis : String → Nat → Except String String)
    (pb : String → Except String Unit) (s : String) :
    (opts.SchematicID ≠ "" → opts.Extensions ≠ [] ∨ opts.ExtraKernelArgs ≠ "" →
      NewHandler cse client opts bis pb =
        .error "schematicID cannot be used with extensions or extraKernelArgs")
    ∧ ((opts.SchematicID = "" ∨ (opts.Extensions = [] ∧ opts.ExtraKernelArgs = "")) →
      ∃ h, NewHandler cse client opts (fun _ _ => .ok s) (fun _ => .ok ()) = .ok h
        ∧ h.initScript = s ∧ h.options = opts) := by
  constructor
  · intro hsid hor
    have hcond : opts.SchematicID ≠ "" ∧
        (opts.Extensions.length > 0 ∨ opts.ExtraKernelArgs.length > 0) := by
      refine ⟨hsid, ?_⟩
      rcases hor with h | h
      · exact Or.inl (List.length_pos.mpr h)
      · exact Or.inr (string_length_pos _ h)
    unfold NewHandler
    rw [if_pos hcond]
  · intro hok
    have hcond : ¬(opts.SchematicID ≠ "" ∧
        (opts.Extensions.length > 0 ∨ opts.ExtraKernelArgs.length > 0)) := by
      rintro ⟨hsid, hlen⟩
      rcases hok with h | ⟨h1, h2⟩
      · exact hsid h
      · rcases hlen with h | h
        · rw [h1] at h
          simp at h
        · rw [h2] at h
          exact absurd h (by decide)
    unfold NewHandler
    rw [if_neg hcond]
    exact ⟨_, rfl, rfl, rfl⟩

/-- Witness for C7: construction fails with a schematic ID plus one extension, and
succeeds with the same schematic ID and no customizations. -/
theorem newHandler_validation_spec_witness :
    NewHandler false archProbe ⟨"10.0.0.1", "v1.8.0", "", "fixed-id", ["ext1"], 50042⟩
        (fun _ _ => .ok "I") (fun _ => .ok ()) =
      .error "schematicID cannot be used with extensions or extraKernelArgs"
    ∧ ∃ h, NewHandler false archProbe ⟨"10.0.0.1", "v1.8.0", "", "fixed-id", [], 50042⟩
        (fun _ _ => .ok "I") (fun _ => .ok ()) = .ok h ∧ h.initScript = "I"
        ∧ h.options = ⟨"10.0.0.1", "v1.8.0", "", "fixed-id", [], 50042⟩ :=
  ⟨(newHandler_validation_spec false archProbe ⟨"10.0.0.1", "v1.8.0", "", "fixed-id", ["ext1"], 50042⟩
      (fun _ _ => .ok "I") (fun _ => .ok ()) "I").1 (by decide) (Or.inl (by decide)),
   (newHandler_validation_spec false archProbe ⟨"10.0.0.1", "v1.8.0", "", "fixed-id", [], 50042⟩
      (fun _ _ => .ok "I") (fun _ => .ok ()) "I").2 (Or.inr ⟨rfl, rfl⟩)⟩

/-- C10: when no fixed schematic ID is configured, the boot response is exactly the
continuation of `EnsureSchematic` applied to the configured extensions and to the
base kernel args followed by the console kernel args of the normalized architecture;
the arm64 and amd64 lists differ, and a concrete resolver that discriminates on the
console args produces different responses for the two architectures. -/
theorem ensure_args_spec (h : Handler) (q : String → String)
    (hsid : h.options.SchematicID = "") :
    h.ServeHTTP bootScriptName q =
      bootRespond (resolveThenURL h (normalizeArch (q "arch"))
        (h.imageFactoryClient.EnsureSchematic h.options.Extensions
          (h.kernelArgs ++ h.consoleKernelArgs (normalizeArch (q "arch")))))
    ∧ h.kernelArgs ++ h.consoleKernelArgs archArm64 ≠
        h.kernelArgs ++ h.consoleKernelArgs archAmd64
    ∧ probeHandler.ServeHTTP bootScriptName qArm ≠
        probeHandler.ServeHTTP bootScriptName qNone := by
  refine ⟨?_, ?_, by decide⟩
  · rw [serve_boot_eq]
    unfold Handler.bootViaFactoryIPXEScript
    rw [if_pos hsid]
  · intro heq
    have h2 := List.append_cancel_left heq
    have h3 : (["console=tty0", "console=ttyAMA0"] : List String) =
        ["console=tty0", "console=ttyS0"] := h2
    exact absurd h3 (by decide)

/-- Witness for C10 at the probe handler, whose schematic ID is empty. -/
theorem ensure_args_spec_witness :
    probeHandler.ServeHTTP bootScriptName qArm =
      bootRespond (resolveThenURL probeHandler (normalizeArch (qArm "arch"))
        (probeHandler.imageFactoryClient.EnsureSchematic probeHandler.options.Extensions
          (probeHandler.kernelArgs ++
            probeHandler.consoleKernelArgs (normalizeArch (qArm "arch")))))
    ∧ probeHandler.ServeHTTP bootScriptName qArm ≠
        probeHandler.ServeHTTP bootScriptName qNone :=
  ⟨(ensure_args_spec probeHandler qArm rfl).1, (ensure_args_spec probeHandler qArm rfl).2.2⟩

end Booter

/-! Machinery for C6: ordering facts about `semver.Version.GT` on stable versions
and an invariant for the fold inside `GetLatestStableVersion`. -/

namespace Booter

open semver imagefactory ipxe

/-- On stable versions (empty pre-release list), `GT` is the strict lexicographic
order on (major, minor, patch). -/
theorem stable_GT_iff (a b : Version) (ha : a.pre = []) (hb : b.pre = []) :
    a.GT b = true ↔
      (b.major < a.major ∨ (b.major = a.major ∧
        (b.minor < a.minor ∨ (b.minor = a.minor ∧ b.patch < a.patch)))) := by
  unfold Version.GT Version.compare
  rw [ha, hb]
  simp only [List.length_nil, beq_iff_eq]
  split_ifs <;> simp_all <;> omega

/-- GT is irreflexive on stable versions. -/
theorem stable_GT_irrefl (a : Version) (ha : a.pre = []) : a.GT a = false := by
  cases hgt : a.GT a with
  | false => rfl
  | true =>
    have k := (stable_GT_iff a a ha ha).mp hgt
    omega

/-- Not-greater-than is transitive on stable versions. -/
theorem stable_nGT_trans (a b c : Version) (ha : a.pre = []) (hb : b.pre = [])
    (hc : c.pre = []) (h1 : a.GT b = false) (h2 : b.GT c = false) : a.GT c = false := by
  cases hgt : a.GT c with
  | false => rfl
  | true =>
    have k := (stable_GT_iff a c ha hc).mp hgt
    have k1 : ¬ (a.GT b = true) := by rw [h1]; simp
    have k2 : ¬ (b.GT c = true) := by rw [h2]; simp
    rw [stable_GT_iff a b ha hb] at k1
    rw [stable_GT_iff b c hb hc] at k2
    omega

/-- If sv strictly exceeds cur but does not exceed r, then cur does not exceed r. -/
theorem stable_GT_chain (r cur sv : Version) (hr : r.pre = []) (hcur : cur.pre = [])
    (hsv : sv.pre = []) (h2 : sv.GT cur = true) (h3 : sv.GT r = false) :
    cur.GT r = false := by
  cases hgt : cur.GT r with
  | false => rfl
  | true =>
    have k := (stable_GT_iff cur r hcur hr).mp hgt
    have k2 := (stable_GT_iff sv cur hsv hcur).mp h2
    have k3 : ¬ (sv.GT r = true) := by rw [h3]; simp
    rw [stable_GT_iff sv r hsv hr] at k3
    omega

/-- A version produced by `stableParse` has an empty pre-release list. -/
theorem stableParse_pre (v : String) (sv : Version) (h : stableParse v = some sv) :
    sv.pre = [] := by
  unfold stableParse at h
  cases hp : semver.parseTolerant v with
  | error e => simp only [hp] at h; exact Option.noConfusion h
  | ok sw =>
    simp only [hp] at h
    split_ifs at h with hl
    injection h with h'
    subst h'
    exact List.length_eq_zero.mp (by omega)

/-- The loop body skips a string that does not parse to a stable version. -/
theorem latestStableStep_of_none (acc : Option Version) (v : String)
    (h : stableParse v = none) : latestStableStep acc v = acc := by
  unfold stableParse at h
  cases hp : semver.parseTolerant v with
  | error e => simp only [latestStableStep, hp]
  | ok sv =>
    simp only [hp] at h
    simp only [latestStableStep, hp]
    split_ifs at h ⊢ with hl
    rfl

/-- The loop body adopts the first stable version when none is held yet. -/
theorem latestStableStep_new (v : String) (sv : Version) (h : stableParse v = some sv) :
    latestStableStep none v = some sv := by
  unfold stableParse at h
  cases hp : semver.parseTolerant v with
  | error e => simp only [hp] at h; exact Option.noConfusion h
  | ok sw =>
    simp only [hp] at h
    simp only [latestStableStep, hp]
    split_ifs at h ⊢ with hl
    exact h

/-- The loop body keeps the held version when the new stable one does not exceed it. -/
theorem latestStableStep_keep (cur : Version) (v : String) (sv : Version)
    (h : stableParse v = some sv) (hgt : sv.GT cur = false) :
    latestStableStep (some cur) v = some cur := by
  unfold stableParse at h
  cases hp : semver.parseTolerant v with
  | error e => simp only [hp] at h; exact Option.noConfusion h
  | ok sw =>
    simp only [hp] at h
    simp only [latestStableStep, hp]
    split_ifs at h with hl
    injection h with h'
    subst h'
    rw [if_neg hl, hgt]
    rfl

/-- The loop body replaces the held version when the new stable one exceeds it. -/
theorem latestStableStep_replace (cur : Version) (v : String) (sv : Version)
    (h : stableParse v = some sv) (hgt : sv.GT cur = true) :
    latestStableStep (some cur) v = some sv := by
  unfold stableParse at h
  cases hp : semver.parseTolerant v with
  | error e => simp only [hp] at h; exact Option.noConfusion h
  | ok sw =>
    simp only [hp] at h
    simp only [latestStableStep, hp]
    split_ifs at h with hl
    injection h with h'
    subst h'
    rw [if_neg hl, hgt]
    rfl

/-- `stableParses` ignores a non-stable head. -/
theorem stableParses_cons_none (v : String) (l : List String) (h : stableParse v = none) :
    stableParses (v :: l) = stableParses l := by
  simp [stableParses, List.filterMap_cons, h]

/-- `stableParses` keeps a stable head. -/
theorem stableParses_cons_some (v : String) (l : List String) (sv : Version)
    (h : stableParse v = some sv) :
    stableParses (v :: l) = sv :: stableParses l := by
  simp [stableParses, List.filterMap_cons, h]

/-- Once the fold holds a version, it never returns to `none`. -/
theorem foldl_step_some_ne_none (l : List String) : ∀ (cur : Version),
    l.foldl latestStableStep (some cur) ≠ none := by
  induction l with
  | nil => intro cur h; exact Option.noConfusion h
  | cons v l ih =>
    intro cur
    rw [List.foldl_cons]
    cases hp : stableParse v with
    | none => rw [latestStableStep_of_none _ _ hp]; exact ih cur
    | some sv =>
      cases hgt : sv.GT cur with
      | true => rw [latestStableStep_replace cur v sv hp hgt]; exact ih sv
      | false => rw [latestStableStep_keep cur v sv hp hgt]; exact ih cur

/-- Invariant of the fold from a held stable version: the result is stable, comes
from the held version or the list, and is exceeded by neither. -/
theorem foldl_step_max (l : List String) : ∀ (cur r : Version), cur.pre = [] →
    l.foldl latestStableStep (some cur) = some r →
    r.pre = [] ∧ (r = cur ∨ r ∈ stableParses l) ∧ cur.GT r = false ∧
      ∀ x ∈ stableParses l, x.GT r = false := by
  induction l with
  | nil =>
    intro cur r hc hr
    rw [List.foldl_nil] at hr
    injection hr with h'
    subst h'
    exact ⟨hc, Or.inl rfl, stable_GT_irrefl _ hc, fun x hx => absurd hx (List.not_mem_nil x)⟩
  | cons v l ih =>
    intro cur r hc hr
    rw [List.foldl_cons] at hr
    cases hp : stableParse v with
    | none =>
      rw [latestStableStep_of_none _ _ hp] at hr
      obtain ⟨h1, h2, h3, h4⟩ := ih cur r hc hr
      rw [stableParses_cons_none _ _ hp]
      exact ⟨h1, h2, h3, h4⟩
    | some sv =>
      have hsv : sv.pre = [] := stableParse_pre _ _ hp
      rw [stableParses_cons_some _ _ _ hp]
      cases hgt : sv.GT cur with
      | true =>
        rw [latestStableStep_replace cur v sv hp hgt] at hr
        obtain ⟨h1, h2, h3, h4⟩ := ih sv r hsv hr
        refine ⟨h1, ?_, ?_, ?_⟩
        · rcases h2 with h2 | h2
          · exact Or.inr (by rw [h2]; exact List.mem_cons_self _ _)
          · exact Or.inr (List.mem_cons_of_mem _ h2)
        · exact stable_GT_chain r cur sv h1 hc hsv hgt h3
        · intro x hx
          rcases List.mem_cons.mp hx with hx | hx
          · rw [hx]; exact h3
          · exact h4 x hx
      | false =>
        rw [latestStableStep_keep cur v sv hp hgt] at hr
        obtain ⟨h1, h2, h3, h4⟩ := ih cur r hc hr
        refine ⟨h1, ?_, h3, ?_⟩
        · rcases h2 with h2 | h2
          · exact Or.inl h2
          · exact Or.inr (List.mem_cons_of_mem _ h2)
        · intro x hx
          rcases List.mem_cons.mp hx with hx | hx
          · rw [hx]; exact stable_nGT_trans sv cur r hsv hc h1 hgt h3
          · exact h4 x hx

/-- The fold returns `none` exactly when the list holds no stable version. -/
theorem foldl_none_iff (l : List String) :
    l.foldl latestStableStep none = none ↔ stableParses l = [] := by
  induction l with
  | nil => simp [stableParses]
  | cons v l ih =>
    rw [List.foldl_cons]
    cases hp : stableParse v with
    | none => rw [latestStableStep_of_none _ _ hp, stableParses_cons_none _ _ hp]; exact ih
    | some sv =>
      rw [latestStableStep_new _ _ hp, stableParses_cons_some _ _ _ hp]
      constructor
      · intro h; exact absurd h (foldl_step_some_ne_none l sv)
      · intro h; exact List.noConfusion h

/-- A successful fold result is a maximum of the stable parses of the list. -/
theorem foldl_none_max (l : List String) : ∀ (r : Version),
    l.foldl latestStableStep none = some r →
    r.pre = [] ∧ r ∈ stableParses l ∧ ∀ x ∈ stableParses l, x.GT r = false := by
  induction l with
  | nil =>
    intro r hr
    rw [List.foldl_nil] at hr
    exact Option.noConfusion hr
  | cons v l ih =>
    intro r hr
    rw [List.foldl_cons] at hr
    cases hp : stableParse v with
    | none =>
      rw [latestStableStep_of_none _ _ hp] at hr
      obtain ⟨h1, h2, h3⟩ := ih r hr
      rw [stableParses_cons_none _ _ hp]
      exact ⟨h1, h2, h3⟩
    | some sv =>
      have hsv := stableParse_pre _ _ hp
      rw [latestStableStep_new _ _ hp] at hr
      obtain ⟨h1, h2, h3, h4⟩ := foldl_step_max l sv r hsv hr
      rw [stableParses_cons_some _ _ _ hp]
      refine ⟨h1, ?_, ?_⟩
      · rcases h2 with h2 | h2
        · rw [h2]; exact List.mem_cons_self _ _
        · exact List.mem_cons_of_mem _ h2
      · intro x hx
        rcases List.mem_cons.mp hx with hx | hx
        · rw [hx]; exact h3
        · exact h4 x hx

/-- A string is a stable version iff `stableParse` succeeds on it. -/
theorem stableParse_none_iff (v : String) :
    stableParse v = none ↔ isStableVersion v = false := by
  unfold stableParse isStableVersion
  cases hp : semver.parseTolerant v with
  | error e => simp
  | ok sv =>
    dsimp only
    by_cases hl : sv.pre.length > 0
    · rw [if_pos hl]
      cases hpre : sv.pre with
      | nil => rw [hpre] at hl; simp at hl
      | cons a as => simp [hpre]
    · rw [if_neg hl]
      cases hpre : sv.pre with
      | nil => simp [hpre]
      | cons a as => rw [hpre] at hl; simp at hl

end Booter

namespace Booter

open semver imagefactory ipxe

/-- C6: `GetLatestStableVersion`, applied to the versions reported by the factory,
succeeds iff some reported string parses to a stable (non-pre-release) version, and
the result renders a stable parse of the list that no other stable parse exceeds
under semantic-version ordering. -/
theorem getLatestStableVersion_spec (c : Client) (versions : List String) :
    ((∃ s, c.GetLatestStableVersion versions = .ok s) ↔
      ∃ v ∈ versions, isStableVersion v = true)
    ∧ ∀ s, c.GetLatestStableVersion versions = .ok s →
        ∃ sv ∈ stableParses versions, s = sv.toStr ∧
          ∀ x ∈ stableParses versions, x.GT sv = false := by
  have hmem : ∀ w : String, isStableVersion w = true ↔ ∃ sv, stableParse w = some sv := by
    intro w
    constructor
    · intro hiv
      cases hsp : stableParse w with
      | none =>
        rw [stableParse_none_iff] at hsp
        rw [hiv] at hsp
        exact Bool.noConfusion hsp
      | some sv => exact ⟨sv, rfl⟩
    · rintro ⟨sv, hsv⟩
      cases hiv : isStableVersion w with
      | true => rfl
      | false =>
        rw [← stableParse_none_iff] at hiv
        rw [hiv] at hsv
        exact Option.noConfusion hsv
  constructor
  · constructor
    · rintro ⟨s, hs⟩
      unfold Client.GetLatestStableVersion at hs
      cases hf : versions.foldl latestStableStep none with
      | none =>
        rw [hf] at hs
        exact Except.noConfusion hs
      | some r =>
        obtain ⟨h1, h2, h3⟩ := foldl_none_max versions r hf
        rw [stableParses, List.mem_filterMap] at h2
        obtain ⟨v, hv, hv2⟩ := h2
        exact ⟨v, hv, (hmem v).mpr ⟨r, hv2⟩⟩
    · rintro ⟨v, hv, hsv⟩
      unfold Client.GetLatestStableVersion
      cases hf : versions.foldl latestStableStep none with
      | none =>
        exfalso
        have hnil := (foldl_none_iff versions).mp hf
        obtain ⟨sv, hsp⟩ := (hmem v).mp hsv
        have hnone : stableParse v = none := by
          unfold stableParses at hnil
          exact List.filterMap_eq_nil_iff.mp hnil v hv
        rw [hnone] at hsp
        exact Option.noConfusion hsp
      | some r => exact ⟨r.toStr, rfl⟩
  · intro s hs
    unfold Client.GetLatestStableVersion at hs
    cases hf : versions.foldl latestStableStep none with
    | none =>
      rw [hf] at hs
      exact Except.noConfusion hs
    | some r =>
      rw [hf] at hs
      obtain ⟨h1, h2, h3⟩ := foldl_none_max versions r hf
      have hs' : Except.ok (ε := String) r.toStr = .ok s := hs
      injection hs' with h'
      exact ⟨r, h2, h'.symm, h3⟩

/-- Witness for C6: among a pre-release, an unparseable string and two stable
versions, the greatest stable one is selected (and rendered canonically). -/
theorem getLatestStableVersion_spec_witness :
    (∃ s, Client.GetLatestStableVersion ⟨"P", false⟩
        ["1.3.0-beta.0", "v1.2.3", "not-a-version", "1.2.9"] = .ok s)
    ∧ Client.GetLatestStableVersion ⟨"P", false⟩
        ["1.3.0-beta.0", "v1.2.3", "not-a-version", "1.2.9"] = .ok "1.2.9" :=
  ⟨(getLatestStableVersion_spec ⟨"P", false⟩
      ["1.3.0-beta.0", "v1.2.3", "not-a-version", "1.2.9"]).1.mpr (by decide),
   by decide⟩

end Booter
